import Mathlib

/-!
Verification development for the short-seller report crawler
(`scrape_short_reports.py`).  The Python source is embedded shallowly:
pure helpers become Lean functions over `List Char` / `String`, the
network and the external libraries (`requests`, `dateutil`, `re`,
`json`, `urljoin`) are modelled as explicit function parameters, and
the stateful crawl loops become structural recursions threading their
accumulators explicitly.
-/

/-! ## Character-list string machinery

The Python helpers work on ordinary strings; we mirror the operations
they use (`lower`, `in`, `endswith`, `split('?')[0]`, `strip`,
whitespace collapsing) on `List Char`, where the proofs live, and wrap
them for `String`.
-/

/-- `listStartsWith l p` holds when `p` is an initial segment of `l`
(Python `str.startswith` on the underlying characters). -/
def listStartsWith : List Char → List Char → Bool
  | _, [] => true
  | [], _ :: _ => false
  | a :: as, b :: bs => a == b && listStartsWith as bs

/-- `listHasSub p l` holds when `p` occurs contiguously inside `l`
(Python `p in l`). -/
def listHasSub (p : List Char) : List Char → Bool
  | [] => p.isEmpty
  | c :: cs => listStartsWith (c :: cs) p || listHasSub p cs

/-- `endsWithL l suf`: `suf` is a final segment of `l`
(Python `str.endswith`). -/
def endsWithL (l suf : List Char) : Bool :=
  listStartsWith l.reverse suf.reverse

/-- Characters Python's `str.strip` / `\s` treat as whitespace
(the ASCII ones, which is all the crawler's data contains). -/
def isSpaceChar (c : Char) : Bool :=
  c == ' ' || c == '\t' || c == '\n' || c == '\r' || c == '\x0b' || c == '\x0c'

/-- `lowerL` is Python `str.lower` restricted to the character-wise
case folding both languages share. -/
def lowerL (l : List Char) : List Char := l.map Char.toLower

/-- Everything before the first occurrence of `c`
(Python `s.split(c)[0]`). -/
def takeUntilChar (c : Char) (l : List Char) : List Char :=
  l.takeWhile (fun x => x != c)

/-- Drop everything up to and including the first occurrence of the
pattern `p`; empty when `p` never occurs. -/
def dropThroughSub (p : List Char) : List Char → List Char
  | [] => []
  | c :: cs => if listStartsWith (c :: cs) p then (c :: cs).drop p.length else dropThroughSub p cs

/-- Python `s.strip()`. -/
def stripWS (l : List Char) : List Char :=
  ((l.dropWhile isSpaceChar).reverse.dropWhile isSpaceChar).reverse

/-- Split into maximal whitespace-free words (helper for `clean_text`). -/
def wordsAux : List Char → List Char → List (List Char)
  | [], acc => if acc.isEmpty then [] else [acc.reverse]
  | c :: cs, acc =>
    if isSpaceChar c then
      if acc.isEmpty then wordsAux cs [] else acc.reverse :: wordsAux cs []
    else wordsAux cs (c :: acc)

/-- `clean_text` from the source: collapse whitespace runs to a single
space and trim (`re.sub(r"\s+", " ", s).strip()`). -/
def clean_text (s : String) : String :=
  String.mk (List.intercalate [' '] (wordsAux s.data []))

/-- Case-folded substring test: `kw in (s.lower())`. -/
def lower_contains (s kw : String) : Bool :=
  listHasSub kw.data (lowerL s.data)

/-! ## Link classifier (`is_pdf_link`, `looks_like_report`,
`normalize_url` and the acceptance test of `process_seed`) -/

/-- `REPORT_KEYWORDS` from the source. -/
def report_keywords : List String :=
  ["report", "research", "whitepaper", "pdf", "short", "analysis", "expose",
   "rebuttal", "investigation"]

/-- `is_pdf_link(href)`:
`href.lower().split('?')[0].endswith('.pdf')`. -/
def is_pdf_link (href : String) : Bool :=
  endsWithL (takeUntilChar '?' (lowerL href.data)) ".pdf".data

/-- `looks_like_report(href, text)`: keyword scan over the case-folded
concatenation `href + " " + text`, then the PDF-extension test. -/
def looks_like_report (href text : String) : Bool :=
  report_keywords.any (fun kw => lower_contains (href ++ " " ++ text) kw)
    || is_pdf_link href

/-- The alternatives of the publications-path regex
`/report[s]?/|/research/|/insights/|/investigation/|/whitepaper/|/publication/`
(all lowercase, matched with `re.IGNORECASE`). -/
def pub_path_patterns : List String :=
  ["/report/", "/reports/", "/research/", "/insights/", "/investigation/",
   "/whitepaper/", "/publication/"]

/-- `urlparse(url).path` for the absolute URLs the crawler handles:
drop the fragment (first `#`), the query (first `?`), and, when a
`://` is present, the scheme and authority (everything up to the next
`/`). -/
def urlPathL (l : List Char) : List Char :=
  if listHasSub "://".data (takeUntilChar '?' (takeUntilChar '#' l)) then
    (dropThroughSub "://".data (takeUntilChar '?' (takeUntilChar '#' l))).dropWhile
      (fun c => c != '/')
  else takeUntilChar '?' (takeUntilChar '#' l)

/-- String wrapper for `urlparse(url).path`. -/
def urlPath (u : String) : String := String.mk (urlPathL u.data)

/-- `re.search` of the publications-path regex on a path. -/
def path_matches_publication (path : String) : Bool :=
  pub_path_patterns.any (fun p => lower_contains path p)

/-- The acceptance test the `process_seed` loop applies to a normalized
link: `looks_like_report(found, link_text)` or the publications-path
regex on `urlparse(found).path`. -/
def accepted_link (found linkText : String) : Bool :=
  looks_like_report found linkText || path_matches_publication (urlPath found)

/-- Modelled from the spec's words (refinement target for C1/C2, not
from the source): the URL's *path* — query and fragment stripped per
`urlparse` — ends in `.pdf` case-insensitively. -/
def spec_path_is_pdf (url : String) : Bool :=
  endsWithL (lowerL (urlPathL url.data)) ".pdf".data

/-- `normalize_url(base, href)`: `None` for empty hrefs and the
`mailto:` / `javascript:` / `tel:` schemes (checked after stripping),
otherwise `urljoin(base, href)`; `join` stands for `urllib`'s
`urljoin`. -/
def normalize_url (join : String → String → String) (base href : String) :
    Option String :=
  if href = "" then none
  else
    if listStartsWith (stripWS href.data) "mailto:".data
        || listStartsWith (stripWS href.data) "javascript:".data
        || listStartsWith (stripWS href.data) "tel:".data then none
    else some (join base (String.mk (stripWS href.data)))

/-! ## HTML document model

A fetched page is modelled as the list of its tags in document order;
`findAll` is BeautifulSoup's `soup.find_all(tag, attrs=...)` and
`getAttr` is `tag.get(...)`.  Tree structure is not needed by the
claims except through `snippet_around_link`, which stays an abstract
parameter of the crawl loop.
-/

structure Tag where
  name : String
  attrs : List (String × String)
  text : String
deriving DecidableEq

/-- `tag.get(key)`. -/
def getAttr (t : Tag) (k : String) : Option String :=
  (t.attrs.find? (fun p => p.1 == k)).map (fun p => p.2)

/-- BeautifulSoup attribute filtering: every requested attribute must
be present with exactly the requested value. -/
def attrsMatch (t : Tag) (attrs : List (String × String)) : Bool :=
  attrs.all (fun p => getAttr t p.1 == some p.2)

/-- `soup.find_all(nm, attrs=attrs)`, in document order. -/
def findAll (doc : List Tag) (nm : String) (attrs : List (String × String)) : List Tag :=
  doc.filter (fun t => t.name == nm && attrsMatch t attrs)

/-- Python `a or b` for an optional string and a string, where `None`
and `""` are falsy. -/
def pyOr (a : Option String) (b : String) : String :=
  match a with
  | some s => if s = "" then b else s
  | none => b

/-- Python `a or b` for two strings (`""` falsy). -/
def pyOrS (a b : String) : String := if a = "" then b else a

/-! ## Date extraction (`find_date_from_meta`)

`parse` models `dateutil.parser.parse(..., fuzzy=True)` followed by
`.isoformat()` (`none` = the parse raised); `scan` models the final
fallback — the month-name regex search over the page's visible text
composed with the same parser (`none` = no match or unparseable).
-/

/-- The `meta_props` priority list from the source. -/
def meta_props : List (String × List (String × String)) :=
  [("meta", [("property", "article:published_time")]),
   ("meta", [("name", "article:published_time")]),
   ("meta", [("property", "og:published_time")]),
   ("meta", [("name", "og:published_time")]),
   ("meta", [("name", "pubdate")]),
   ("meta", [("name", "publication_date")]),
   ("meta", [("name", "date")]),
   ("time", [])]

/-- `t.get('content') or t.get('datetime') or t.get_text()`. -/
def tagVal (t : Tag) : String :=
  pyOr (getAttr t "content") (pyOr (getAttr t "datetime") t.text)

/-- The inner loop of `find_date_from_meta`: walk the tags of one
stage, take the first whose cleaned value is non-empty and parses. -/
def tryTags (parse : String → Option String) : List Tag → Option String
  | [] => none
  | t :: rest =>
    if clean_text (tagVal t) = "" then tryTags parse rest
    else
      match parse (clean_text (tagVal t)) with
      | some d => some d
      | none => tryTags parse rest

/-- The outer loop of `find_date_from_meta`: the stages of
`meta_props` in order, first hit wins. -/
def tryStages (parse : String → Option String) (doc : List Tag) :
    List (String × List (String × String)) → Option String
  | [] => none
  | st :: rest =>
    match tryTags parse (findAll doc st.1 st.2) with
    | some d => some d
    | none => tryStages parse doc rest

/-- `find_date_from_meta(soup)`: the meta/time stages, then the
regex-scan fallback over the page's visible text. -/
def find_date_from_meta (parse scan : String → Option String)
    (doc : List Tag) (text : String) : Option String :=
  match tryStages parse doc meta_props with
  | some d => some d
  | none => scan text

/-! ## Title extraction (`extract_title`) -/

/-- `if soup.title and soup.title.string: return clean_text(...)`. -/
def title_from_title_tag (doc : List Tag) : Option String :=
  match (findAll doc "title" []).head? with
  | some t => if t.text = "" then none else some (clean_text t.text)
  | none => none

/-- `soup.find('meta', attrs={'property': nm}) or
soup.find('meta', attrs={'name': nm})`. -/
def meta_title_lookup (doc : List Tag) (nm : String) : Option Tag :=
  match (findAll doc "meta" [("property", nm)]).head? with
  | some t => some t
  | none => (findAll doc "meta" [("name", nm)]).head?

/-- The meta-title loop over `('og:title', 'twitter:title', 'title')`:
return the first found tag with a truthy `content`. -/
def title_from_meta_names (doc : List Tag) : List String → Option String
  | [] => none
  | nm :: rest =>
    match meta_title_lookup doc nm with
    | some t =>
      match getAttr t "content" with
      | some c => if c = "" then title_from_meta_names doc rest else some (clean_text c)
      | none => title_from_meta_names doc rest
    | none => title_from_meta_names doc rest

def title_meta_names : List String := ["og:title", "twitter:title", "title"]

def title_from_meta (doc : List Tag) : Option String :=
  title_from_meta_names doc title_meta_names

/-- `extract_title(soup)`: title tag, else meta titles, else first
`h1`, else `None`. -/
def extract_title (doc : List Tag) : Option String :=
  match title_from_title_tag doc with
  | some s => some s
  | none =>
    match title_from_meta doc with
    | some s => some s
    | none =>
      match (findAll doc "h1" []).head? with
      | some t => some (clean_text t.text)
      | none => none

/-- `sub_soup.find('p')` fallback snippet used when the seed-page
snippet was empty. -/
def first_paragraph_snippet (doc : List Tag) : String :=
  match (findAll doc "p" []).head? with
  | some t => clean_text t.text
  | none => ""

/-! ## Per-link record construction (`process_seed` body)

`LinkFetch` is the observable outcome of fetching a non-PDF candidate:
a 200 response with an HTML content type (carrying the parsed document
and its visible text), any other received response, or a raised
request exception.  PDF downloads are modelled with `--download-pdfs`
off (the default), so `local_path` is always empty; `probe` is the
status of the HEAD probe (`none` = the probe raised).
-/

inductive LinkFetch where
  | html (doc : List Tag) (text : String)
  | nonHtml (status : Nat)
  | failed
deriving DecidableEq

structure ReportRecord where
  firm : String
  seedUrl : String
  foundUrl : String
  title : String
  datePublished : String
  snippet : String
  isPdf : Bool
  localPath : String
  httpStatus : Option Nat
deriving DecidableEq

/-- One ReportRecord as the `process_seed` loop body builds it for an
accepted link (`fetched_at` is the wall clock and is omitted). -/
def buildRecord (parse scan : String → Option String)
    (firm seed found linkText snip0 : String)
    (probe : Option Nat) (lf : LinkFetch) : ReportRecord :=
  if is_pdf_link found then
    { firm := firm, seedUrl := seed, foundUrl := found, title := "",
      datePublished := "", snippet := snip0, isPdf := true, localPath := "",
      httpStatus := probe }
  else
    match lf with
    | LinkFetch.html doc text =>
      { firm := firm, seedUrl := seed, foundUrl := found,
        title := pyOr (extract_title doc) linkText,
        datePublished := (find_date_from_meta parse scan doc text).getD "",
        snippet := if snip0 = "" then first_paragraph_snippet doc else snip0,
        isPdf := false, localPath := "", httpStatus := some 200 }
    | LinkFetch.nonHtml st =>
      { firm := firm, seedUrl := seed, foundUrl := found,
        title := pyOrS linkText found, datePublished := "", snippet := snip0,
        isPdf := false, localPath := "", httpStatus := some st }
    | LinkFetch.failed =>
      { firm := firm, seedUrl := seed, foundUrl := found,
        title := pyOrS linkText found, datePublished := "", snippet := snip0,
        isPdf := false, localPath := "", httpStatus := none }

/-- An `<a href=...>` element on the seed page. -/
structure Anchor where
  href : String
  text : String
deriving DecidableEq

/-- The anchor loop of `process_seed`: normalize, deduplicate against
`seen`, classify, and build a record for each accepted link.  `net`
and `probe` model the per-link fetch/probe, `snipOf` models
`snippet_around_link(soup, a)` on the seed page, `join` models
`urljoin`. -/
def seedLoop (parse scan : String → Option String) (net : String → LinkFetch)
    (probe : String → Option Nat) (snipOf : Anchor → String)
    (join : String → String → String) (firm seed : String) :
    List Anchor → List String → List ReportRecord
  | [], _ => []
  | a :: rest, seen =>
    match normalize_url join seed a.href with
    | none => seedLoop parse scan net probe snipOf join firm seed rest seen
    | some found =>
      if found ∈ seen then seedLoop parse scan net probe snipOf join firm seed rest seen
      else
        if accepted_link found (clean_text a.text) then
          buildRecord parse scan firm seed found (clean_text a.text) (snipOf a)
              (probe found) (net found)
            :: seedLoop parse scan net probe snipOf join firm seed rest (found :: seen)
        else seedLoop parse scan net probe snipOf join firm seed rest (found :: seen)

/-- Outcome of fetching a seed page: a 200 HTML page with its anchors,
a non-200 response, or a raised request exception. -/
inductive SeedFetch where
  | ok (anchors : List Anchor)
  | status (code : Nat)
  | failed
deriving DecidableEq

/-- `process_seed`: failed or non-200 seed fetches yield no records. -/
def process_seed (parse scan : String → Option String) (net : String → LinkFetch)
    (probe : String → Option Nat) (snipOf : Anchor → String)
    (join : String → String → String) (firm seed : String)
    (sf : SeedFetch) : List ReportRecord :=
  match sf with
  | SeedFetch.ok anchors => seedLoop parse scan net probe snipOf join firm seed anchors []
  | SeedFetch.status _ => []
  | SeedFetch.failed => []

/-! ## Fetch client (`safe_request`)

`net i` is the outcome of attempt `i` (a received `Response`, of any
status, or the message of the raised `requests.RequestException`).
The result pairs the surfaced outcome with the list of backoff sleeps
performed, in seconds, as exact rationals.
-/

structure Response where
  status : Nat
  body : String
deriving DecidableEq

/-- `RETRY_COUNT` from the source. -/
def RETRY_COUNT : Nat := 2

/-- The `for attempt in range(RETRY_COUNT + 1)` loop of
`safe_request`; the fuel counts remaining loop iterations, so the
zero-fuel case is the `raise RuntimeError("unreachable")` line. -/
def safe_request_from (net : Nat → Except String Response) :
    Nat → Nat → Except String Response × List ℚ
  | _, 0 => (Except.error "unreachable", [])
  | attempt, fuel + 1 =>
    match net attempt with
    | Except.ok r => (Except.ok r, [])
    | Except.error e =>
      if RETRY_COUNT ≤ attempt then (Except.error e, [])
      else
        ((safe_request_from net (attempt + 1) fuel).1,
          ((3 : ℚ) / 2) ^ attempt :: (safe_request_from net (attempt + 1) fuel).2)

/-- `safe_request(session, url, method, ...)` for one fixed
url/method. -/
def safe_request (net : Nat → Except String Response) :
    Except String Response × List ℚ :=
  safe_request_from net 0 (RETRY_COUNT + 1)

/-! ## Aggregation (`main`)

Dates re-parsed by `main` via `datetime.fromisoformat` live in an
arbitrary linearly ordered type `D`; `parseD` models the parse
(`none` = empty string is skipped or the parse raised) and `isoD`
models `.isoformat()`.  `scrape` models `process_seed` for one firm
name and seed URL (an exception inside the per-seed `try` block also
yields `[]`); `last_scanned_at` / `fetched_at` wall-clock fields are
omitted.
-/

structure FirmConfig where
  name : String
  website : String
  description : String
  seedUrls : List String
deriving DecidableEq

structure FirmSummary where
  firmName : String
  website : String
  description : String
  totalReports : Nat
  pdfReports : Nat
  htmlReports : Nat
  earliestReportDate : String
  latestReportDate : String
  seedUrlsScanned : Nat
  successfulFetches : Nat
deriving DecidableEq

/-- Python `min` over a list (`none` on empty). -/
def listMin {D : Type} [LinearOrder D] : List D → Option D
  | [] => none
  | d :: ds => some (ds.foldl min d)

/-- Python `max` over a list (`none` on empty). -/
def listMax {D : Type} [LinearOrder D] : List D → Option D
  | [] => none
  | d :: ds => some (ds.foldl max d)

/-- The `dates` list of `main`: non-empty `date_published` strings
that parse. -/
def firm_dates {D : Type} (parseD : String → Option D) (rows : List ReportRecord) :
    List D :=
  rows.filterMap (fun r => if r.datePublished = "" then none else parseD r.datePublished)

/-- The firm-summary dictionary computed by `main` for one firm. -/
def mkSummary {D : Type} [LinearOrder D] (parseD : String → Option D)
    (isoD : D → String) (f : FirmConfig) (successFetches : Nat)
    (rows : List ReportRecord) : FirmSummary :=
  { firmName := f.name, website := f.website, description := f.description,
    totalReports := rows.length,
    pdfReports := (rows.filter (fun r => r.isPdf)).length,
    htmlReports := rows.length - (rows.filter (fun r => r.isPdf)).length,
    earliestReportDate :=
      match listMin (firm_dates parseD rows) with
      | some d => isoD d
      | none => "",
    latestReportDate :=
      match listMax (firm_dates parseD rows) with
      | some d => isoD d
      | none => "",
    seedUrlsScanned := f.seedUrls.length,
    successfulFetches := successFetches }

/-- `firm_rows` accumulated over all of a firm's seeds. -/
def firm_rows (scrape : String → String → List ReportRecord) (f : FirmConfig) :
    List ReportRecord :=
  (f.seedUrls.map (scrape f.name)).flatten

/-- `successful_fetches`: seeds whose scrape returned at least one
row. -/
def successful_fetches (scrape : String → String → List ReportRecord)
    (f : FirmConfig) : Nat :=
  (f.seedUrls.filter (fun s => !(scrape f.name s).isEmpty)).length

/-- The per-firm loop of `main`: firms without seeds are skipped with
a warning, firms whose accumulated rows are empty contribute neither
rows nor a summary (`if firm_rows:`), and otherwise the firm's rows
and its summary are appended. -/
def processFirms {D : Type} [LinearOrder D] (parseD : String → Option D)
    (isoD : D → String) (scrape : String → String → List ReportRecord) :
    List FirmConfig → List ReportRecord × List FirmSummary
  | [] => ([], [])
  | f :: rest =>
    if f.seedUrls.isEmpty then processFirms parseD isoD scrape rest
    else if (firm_rows scrape f).isEmpty then processFirms parseD isoD scrape rest
    else
      (firm_rows scrape f ++ (processFirms parseD isoD scrape rest).1,
        mkSummary parseD isoD f (successful_fetches scrape f) (firm_rows scrape f)
          :: (processFirms parseD isoD scrape rest).2)

/-- `save_as_csv` / `save_firms_csv`: append-only, no rewriting and no
deduplication of previously written rows. -/
def save_as_csv (existing rows : List ReportRecord) : List ReportRecord :=
  existing ++ rows

/-! ## Run-level control flow (`main`'s configuration handling) -/

/-- How loading `--config` went: file absent, `json.load` raised, or a
parsed firm list. -/
inductive ConfigLoad where
  | missing
  | malformed (err : String)
  | loaded (firms : List FirmConfig)
deriving DecidableEq

inductive RunOutcome where
  | fatalMissingConfig
  | fatalParseError (err : String)
  | completed (rows : List ReportRecord) (summaries : List FirmSummary)
deriving DecidableEq

/-- Whether the run reached the output-writing stage. -/
def RunOutcome.completes : RunOutcome → Bool
  | RunOutcome.completed _ _ => true
  | _ => false

/-- `main`'s control flow around configuration: a missing file is
`sys.exit(1)`; a `json.load` failure is an uncaught exception (the
run dies); otherwise the firms are processed. -/
def runMain {D : Type} [LinearOrder D] (parseD : String → Option D)
    (isoD : D → String) (scrape : String → String → List ReportRecord)
    (cfg : ConfigLoad) : RunOutcome :=
  match cfg with
  | ConfigLoad.missing => RunOutcome.fatalMissingConfig
  | ConfigLoad.malformed e => RunOutcome.fatalParseError e
  | ConfigLoad.loaded firms =>
    RunOutcome.completed (processFirms parseD isoD scrape firms).1
      (processFirms parseD isoD scrape firms).2

/-! ## Concrete instances used by witnesses and counterexamples -/

def parse0 : String → Option String := fun _ => none

def scan0 : String → Option String := fun _ => none

def parseD0 : String → Option Int := fun _ => none

def isoD0 : Int → String := fun _ => ""

def scrapeNone : String → String → List ReportRecord := fun _ _ => []

def joinW : String → String → String := fun _ h => h

def netW : String → LinkFetch := fun _ => LinkFetch.failed

def probeW : String → Option Nat := fun _ => some 200

def snipW : Anchor → String := fun a => clean_text a.text

def acmeCfg : FirmConfig :=
  { name := "Acme", website := "", description := "",
    seedUrls := ["https://acme.example/reports"] }

def firmTwoSeeds : FirmConfig :=
  { name := "Acme", website := "", description := "",
    seedUrls := ["https://acme.example/s1", "https://acme.example/s2"] }

def anchorsW : List Anchor := [{ href := "https://acme.example/r/a.pdf", text := "Report" }]

def scrapeW : String → String → List ReportRecord :=
  fun firm seed => seedLoop parse0 scan0 netW probeW snipW joinW firm seed anchorsW []

/-- The single record `seedLoop` emits for `anchorsW` (used by
witnesses). -/
def recW : ReportRecord :=
  buildRecord parse0 scan0 "Acme" "https://acme.example/s1" "https://acme.example/r/a.pdf"
    (clean_text "Report") (snipW { href := "https://acme.example/r/a.pdf", text := "Report" })
    (probeW "https://acme.example/r/a.pdf") (netW "https://acme.example/r/a.pdf")

/-- An anchor whose target path ends in `.pdf` but carries a URL
fragment. -/
def anchorFragPdf : List Anchor :=
  [{ href := "https://x.example/report.pdf#page=2", text := "Report" }]

def rowsFragPdf : List ReportRecord :=
  seedLoop parse0 scan0 netW probeW snipW joinW "Frag" "https://x.example/s"
    anchorFragPdf []

/-- An anchor whose target carries a query string after the `.pdf`
path. -/
def anchorsQ : List Anchor :=
  [{ href := "https://acme.example/files/a.pdf?dl=1", text := "x" }]

def recQ : ReportRecord :=
  buildRecord parse0 scan0 "Acme" "https://acme.example/s1"
    "https://acme.example/files/a.pdf?dl=1" (clean_text "x")
    (snipW { href := "https://acme.example/files/a.pdf?dl=1", text := "x" })
    (probeW "https://acme.example/files/a.pdf?dl=1")
    (netW "https://acme.example/files/a.pdf?dl=1")

def docTitleW : List Tag := [{ name := "title", attrs := [], text := "Acme Exposed" }]

def noSeedCfg : FirmConfig :=
  { name := "NoSeeds", website := "", description := "", seedUrls := [] }

def docW : List Tag :=
  [{ name := "meta",
     attrs := [("property", "article:published_time"),
       ("content", "2021-06-01T00:00:00Z")],
     text := "" }]

def parseW : String → Option String :=
  fun s => if s = "2021-06-01T00:00:00Z" then some "2021-06-01T00:00:00+00:00" else none

def scanW : String → Option String := fun _ => some "1999-01-01T00:00:00"

def netRetryW : Nat → Except String Response :=
  fun i => if i = 0 then Except.error "connection reset" else Except.ok { status := 404, body := "" }

def parseDAcme : String → Option Int :=
  fun s => if s = "2021-01-01" then some 101 else if s = "2021-06-01" then some 601 else none

def isoDAcme : Int → String := fun i => toString i

def acmeRows : List ReportRecord :=
  [{ firm := "Acme", seedUrl := "s", foundUrl := "u1", title := "t1",
     datePublished := "2021-01-01", snippet := "", isPdf := false, localPath := "",
     httpStatus := some 200 },
   { firm := "Acme", seedUrl := "s", foundUrl := "u2", title := "t2",
     datePublished := "2021-06-01", snippet := "", isPdf := true, localPath := "",
     httpStatus := some 200 },
   { firm := "Acme", seedUrl := "s", foundUrl := "u3", title := "t3",
     datePublished := "", snippet := "", isPdf := false, localPath := "",
     httpStatus := some 200 }]

def garbageRows : List ReportRecord :=
  [{ firm := "Acme", seedUrl := "s", foundUrl := "u1", title := "t1",
     datePublished := "not a date", snippet := "", isPdf := false, localPath := "",
     httpStatus := some 200 }]

/-! # Theorems -/

/-! ## Substring lemmas -/

theorem listStartsWith_iff (l p : List Char) :
    listStartsWith l p = true ↔ ∃ t, l = p ++ t := by
  induction p generalizing l with
  | nil => simp [listStartsWith]
  | cons b bs ih =>
    cases l with
    | nil => simp [listStartsWith]
    | cons a as =>
      simp only [listStartsWith, Bool.and_eq_true, beq_iff_eq, ih, List.cons_append,
        List.cons.injEq]
      constructor
      · rintro ⟨rfl, t, rfl⟩; exact ⟨t, rfl, rfl⟩
      · rintro ⟨t, rfl, rfl⟩; exact ⟨rfl, t, rfl⟩

theorem listHasSub_iff (p l : List Char) :
    listHasSub p l = true ↔ ∃ a b, l = a ++ p ++ b := by
  induction l with
  | nil =>
    simp only [listHasSub, List.isEmpty_iff]
    constructor
    · rintro rfl; exact ⟨[], [], rfl⟩
    · rintro ⟨a, b, h⟩
      rcases List.append_eq_nil.1 h.symm with ⟨h1, h2⟩
      exact (List.append_eq_nil.1 h1).2
  | cons c cs ih =>
    simp only [listHasSub, Bool.or_eq_true, listStartsWith_iff, ih]
    constructor
    · rintro (⟨t, ht⟩ | ⟨a, b, hab⟩)
      · exact ⟨[], t, by simp [ht]⟩
      · exact ⟨c :: a, b, by simp [hab]⟩
    · rintro ⟨a, b, hab⟩
      cases a with
      | nil => exact Or.inl ⟨b, by simpa using hab⟩
      | cons x xs =>
        right
        refine ⟨xs, b, ?_⟩
        have := hab
        simp only [List.cons_append, List.cons.injEq] at this
        exact this.2

theorem endsWithL_iff (l suf : List Char) :
    endsWithL l suf = true ↔ ∃ a, l = a ++ suf := by
  simp only [endsWithL, listStartsWith_iff]
  constructor
  · rintro ⟨t, ht⟩
    refine ⟨t.reverse, ?_⟩
    have := congrArg List.reverse ht
    simpa using this
  · rintro ⟨a, rfl⟩
    exact ⟨a.reverse, by simp⟩

theorem listHasSub_append_of_right (p l a b : List Char)
    (h : listHasSub p l = true) :
    listHasSub p (a ++ l ++ b) = true := by
  rcases (listHasSub_iff p l).1 h with ⟨x, y, rfl⟩
  exact (listHasSub_iff p _).2 ⟨a ++ x, y ++ b, by simp⟩

/-- `dropThroughSub` always returns a final segment of its input. -/
theorem dropThroughSub_suffix (p l : List Char) :
    ∃ a, l = a ++ dropThroughSub p l := by
  induction l with
  | nil => exact ⟨[], rfl⟩
  | cons c cs ih =>
    by_cases h : listStartsWith (c :: cs) p = true
    · refine ⟨(c :: cs).take p.length, ?_⟩
      unfold dropThroughSub
      rw [if_pos h]
      exact (List.take_append_drop p.length (c :: cs)).symm
    · rcases ih with ⟨a, ha⟩
      refine ⟨c :: a, ?_⟩
      unfold dropThroughSub
      rw [if_neg h, List.cons_append]
      exact congrArg (List.cons c) ha

/-- `urlPathL l` is a contiguous substring of `l`. -/
theorem urlPathL_infix (l : List Char) :
    ∃ a b, l = a ++ urlPathL l ++ b := by
  have hq : ∃ b₁, l = takeUntilChar '?' (takeUntilChar '#' l) ++ b₁ := by
    refine ⟨(takeUntilChar '#' l).dropWhile (fun x => x != '?')
      ++ l.dropWhile (fun x => x != '#'), ?_⟩
    unfold takeUntilChar
    rw [← List.append_assoc, List.takeWhile_append_dropWhile,
      List.takeWhile_append_dropWhile]
  rcases hq with ⟨b₁, hb₁⟩
  unfold urlPathL
  by_cases h : listHasSub "://".data (takeUntilChar '?' (takeUntilChar '#' l)) = true
  · rw [if_pos h]
    rcases dropThroughSub_suffix "://".data (takeUntilChar '?' (takeUntilChar '#' l))
      with ⟨a₀, ha₀⟩
    refine ⟨a₀ ++ (dropThroughSub "://".data
      (takeUntilChar '?' (takeUntilChar '#' l))).takeWhile (fun c => c != '/'),
      b₁, ?_⟩
    conv_lhs => rw [hb₁, ha₀]
    conv_rhs => rw [List.append_assoc a₀, List.takeWhile_append_dropWhile]
  · rw [if_neg h]
    exact ⟨[], b₁, by simpa using hb₁⟩

/-! ## String-level facts feeding the classifier claims -/

theorem String_data_append (s t : String) : (s ++ t).data = s.data ++ t.data := by
  cases s; cases t; rfl

theorem lowerL_append (a b : List Char) : lowerL (a ++ b) = lowerL a ++ lowerL b :=
  List.map_append _ a b

theorem dotPdf_cons : ".pdf".data = '.' :: "pdf".data := rfl

/-- A URL the code classifies as a PDF link contains the keyword
`pdf`, so the keyword scan already accepts it. -/
theorem is_pdf_link_contains_pdf (href text : String)
    (h : is_pdf_link href = true) :
    lower_contains (href ++ " " ++ text) "pdf" = true := by
  unfold is_pdf_link at h
  rcases (endsWithL_iff _ _).1 h with ⟨a, ha⟩
  have ha' : List.takeWhile (fun x => x != '?') (lowerL href.data)
      = a ++ ".pdf".data := ha
  have hsplit : lowerL href.data = (a ++ ".pdf".data)
      ++ List.dropWhile (fun x => x != '?') (lowerL href.data) := by
    conv_lhs => rw [← List.takeWhile_append_dropWhile (p := fun x => x != '?')
      (l := lowerL href.data)]
    rw [ha']
  unfold lower_contains
  have hdata : (href ++ " " ++ text).data = href.data ++ " ".data ++ text.data := by
    rw [String_data_append, String_data_append]
  rw [hdata, lowerL_append, lowerL_append, hsplit]
  refine (listHasSub_iff _ _).2 ⟨a ++ ['.'],
    List.dropWhile (fun x => x != '?') (lowerL href.data)
      ++ lowerL " ".data ++ lowerL text.data, ?_⟩
  rw [dotPdf_cons]
  simp

/-- A URL whose `urlparse` path ends in `.pdf` (the spec's phrasing)
also contains the keyword `pdf`, so the keyword scan accepts it. -/
theorem spec_path_is_pdf_contains_pdf (url text : String)
    (h : spec_path_is_pdf url = true) :
    lower_contains (url ++ " " ++ text) "pdf" = true := by
  unfold spec_path_is_pdf at h
  rcases (endsWithL_iff _ _).1 h with ⟨a, ha⟩
  rcases urlPathL_infix url.data with ⟨x, y, hxy⟩
  unfold lower_contains
  have hdata : (url ++ " " ++ text).data = url.data ++ " ".data ++ text.data := by
    rw [String_data_append, String_data_append]
  rw [hdata, lowerL_append, lowerL_append]
  conv_lhs => rw [hxy]
  rw [lowerL_append, lowerL_append, ha]
  refine (listHasSub_iff _ _).2 ⟨lowerL x ++ a ++ ['.'],
    lowerL y ++ lowerL " ".data ++ lowerL text.data, ?_⟩
  rw [dotPdf_cons]
  simp

theorem buildRecord_foundUrl (parse scan : String → Option String)
    (firm seed found lt sn : String) (pr : Option Nat) (lf : LinkFetch) :
    (buildRecord parse scan firm seed found lt sn pr lf).foundUrl = found := by
  unfold buildRecord
  split
  · rfl
  · cases lf <;> rfl

theorem buildRecord_isPdf (parse scan : String → Option String)
    (firm seed found lt sn : String) (pr : Option Nat) (lf : LinkFetch) :
    (buildRecord parse scan firm seed found lt sn pr lf).isPdf = is_pdf_link found := by
  unfold buildRecord
  split
  · next h => exact h.symm
  · next h =>
    simp only [Bool.not_eq_true] at h
    cases lf <;> exact h.symm

/-- Every record `seedLoop` emits stems from an anchor whose
normalized URL was accepted by the classifier. -/
theorem seedLoop_mem_accepted (parse scan : String → Option String)
    (net : String → LinkFetch) (probe : String → Option Nat)
    (snipOf : Anchor → String) (join : String → String → String)
    (firm seed : String) (anchors : List Anchor) :
    ∀ (seen : List String) (r : ReportRecord),
      r ∈ seedLoop parse scan net probe snipOf join firm seed anchors seen →
      ∃ a, a ∈ anchors ∧ normalize_url join seed a.href = some r.foundUrl ∧
        accepted_link r.foundUrl (clean_text a.text) = true := by
  induction anchors with
  | nil => intro seen r h; simp [seedLoop] at h
  | cons a rest ih =>
    intro seen r h
    rw [seedLoop] at h
    cases hn : normalize_url join seed a.href with
    | none =>
      simp only [hn] at h
      rcases ih seen r h with ⟨b, hb, h2, h3⟩
      exact ⟨b, List.mem_cons_of_mem a hb, h2, h3⟩
    | some found =>
      simp only [hn] at h
      by_cases hseen : found ∈ seen
      · rw [if_pos hseen] at h
        rcases ih seen r h with ⟨b, hb, h2, h3⟩
        exact ⟨b, List.mem_cons_of_mem a hb, h2, h3⟩
      · rw [if_neg hseen] at h
        by_cases hacc : accepted_link found (clean_text a.text) = true
        · rw [if_pos hacc] at h
          rcases List.mem_cons.1 h with rfl | hmem
          · refine ⟨a, List.mem_cons_self a rest, ?_, ?_⟩
            · rw [buildRecord_foundUrl]; exact hn
            · rw [buildRecord_foundUrl]; exact hacc
          · rcases ih _ r hmem with ⟨b, hb, h2, h3⟩
            exact ⟨b, List.mem_cons_of_mem a hb, h2, h3⟩
        · rw [if_neg hacc] at h
          rcases ih _ r h with ⟨b, hb, h2, h3⟩
          exact ⟨b, List.mem_cons_of_mem a hb, h2, h3⟩

/-- C1: a discovered link is accepted as a candidate report iff its
query-stripped path ends in `.pdf` (case-insensitive), or the
case-folded concatenation of URL and anchor text contains one of the
report keywords, or its `urlparse` path matches one of the
publications path-segment patterns; and every record the crawl loop
emits comes from an anchor whose normalized URL passed this test, so
a rejected link yields no ReportRecord. -/
theorem c1_link_classifier :
    (∀ found ltext : String,
      accepted_link found ltext = true ↔
        (spec_path_is_pdf found = true
          ∨ (∃ kw, kw ∈ report_keywords
              ∧ lower_contains (found ++ " " ++ ltext) kw = true)
          ∨ (∃ p, p ∈ pub_path_patterns
              ∧ lower_contains (urlPath found) p = true)))
  ∧ (∀ (parse scan : String → Option String) (net : String → LinkFetch)
      (probe : String → Option Nat) (snipOf : Anchor → String)
      (join : String → String → String) (firm seed : String)
      (anchors : List Anchor) (seen : List String) (r : ReportRecord),
      r ∈ seedLoop parse scan net probe snipOf join firm seed anchors seen →
      ∃ a, a ∈ anchors ∧ normalize_url join seed a.href = some r.foundUrl ∧
        accepted_link r.foundUrl (clean_text a.text) = true) := by
  constructor
  · intro found ltext
    constructor
    · intro h
      simp only [accepted_link, looks_like_report, path_matches_publication,
        Bool.or_eq_true, List.any_eq_true] at h
      rcases h with (⟨kw, hkw, hc⟩ | hpdf) | ⟨p, hp1, hp2⟩
      · exact Or.inr (Or.inl ⟨kw, hkw, hc⟩)
      · refine Or.inr (Or.inl ⟨"pdf", ?_, is_pdf_link_contains_pdf found ltext hpdf⟩)
        simp [report_keywords]
      · exact Or.inr (Or.inr ⟨p, hp1, hp2⟩)
    · intro h
      simp only [accepted_link, looks_like_report, path_matches_publication,
        Bool.or_eq_true, List.any_eq_true]
      rcases h with hspec | ⟨kw, hkw, hc⟩ | ⟨p, hp1, hp2⟩
      · refine Or.inl (Or.inl ⟨"pdf", ?_, spec_path_is_pdf_contains_pdf found ltext hspec⟩)
        simp [report_keywords]
      · exact Or.inl (Or.inl ⟨kw, hkw, hc⟩)
      · exact Or.inr ⟨p, hp1, hp2⟩
  · intro parse scan net probe snipOf join firm seed anchors seen r h
    exact seedLoop_mem_accepted parse scan net probe snipOf join firm seed anchors seen r h

/-- C1 witness: the concrete seed scan of `anchorsW` emits `recW`, and
the theorem recovers the accepted anchor behind it. -/
theorem c1_link_classifier_witness :
    ∃ a, a ∈ anchorsW ∧
      normalize_url joinW "https://acme.example/s1" a.href = some recW.foundUrl ∧
      accepted_link recW.foundUrl (clean_text a.text) = true :=
  c1_link_classifier.2 parse0 scan0 netW probeW snipW joinW "Acme"
    "https://acme.example/s1" anchorsW [] recW (by decide)

/-! ## C2: PDF classification of emitted records -/

/-- Every record the crawl loop emits satisfies the code's PDF rule on
its own `found_url`. -/
theorem seedLoop_isPdf_rule (parse scan : String → Option String)
    (net : String → LinkFetch) (probe : String → Option Nat)
    (snipOf : Anchor → String) (join : String → String → String)
    (firm seed : String) (anchors : List Anchor) :
    ∀ (seen : List String) (r : ReportRecord),
      r ∈ seedLoop parse scan net probe snipOf join firm seed anchors seen →
      r.isPdf = is_pdf_link r.foundUrl := by
  induction anchors with
  | nil => intro seen r h; simp [seedLoop] at h
  | cons a rest ih =>
    intro seen r h
    rw [seedLoop] at h
    cases hn : normalize_url join seed a.href with
    | none =>
      simp only [hn] at h
      exact ih seen r h
    | some found =>
      simp only [hn] at h
      by_cases hseen : found ∈ seen
      · rw [if_pos hseen] at h
        exact ih seen r h
      · rw [if_neg hseen] at h
        by_cases hacc : accepted_link found (clean_text a.text) = true
        · rw [if_pos hacc] at h
          rcases List.mem_cons.1 h with rfl | hmem
          · rw [buildRecord_isPdf, buildRecord_foundUrl]
          · exact ih _ r hmem
        · rw [if_neg hacc] at h
          exact ih _ r h

/-- C2 counterexample: the crawler emits a record for
`https://x.example/report.pdf#page=2` whose `is_pdf` is `false`, yet
the URL's query-stripped *path* (which also drops the fragment) ends
in `.pdf` — the claimed equivalence fails on URLs carrying a fragment
directly after the `.pdf` path. -/
theorem c2_is_pdf_counterexample :
    rowsFragPdf.map (fun r => (r.isPdf, spec_path_is_pdf r.foundUrl))
      = [(false, true)] := by
  decide

/-- C2 (amended): for every ReportRecord R emitted by the crawler,
`R.is_pdf` is true iff `R.found_url`, case-folded and truncated at its
first `?`, ends in `.pdf`; URLs with query strings after the `.pdf`
path are classified as PDFs, but a fragment that is not preceded by a
query string is kept, so such URLs are not. -/
theorem c2_is_pdf_amended (parse scan : String → Option String)
    (net : String → LinkFetch) (probe : String → Option Nat)
    (snipOf : Anchor → String) (join : String → String → String)
    (firm seed : String) (anchors : List Anchor) (seen : List String)
    (r : ReportRecord)
    (h : r ∈ seedLoop parse scan net probe snipOf join firm seed anchors seen) :
    r.isPdf = endsWithL (takeUntilChar '?' (lowerL r.foundUrl.data)) ".pdf".data :=
  seedLoop_isPdf_rule parse scan net probe snipOf join firm seed anchors seen r h

/-- C2 witness: the record for a `.pdf?dl=1` link obeys the amended
rule and is classified as a PDF. -/
theorem c2_is_pdf_amended_witness :
    (recQ.isPdf = endsWithL (takeUntilChar '?' (lowerL recQ.foundUrl.data)) ".pdf".data)
      ∧ recQ.isPdf = true :=
  ⟨c2_is_pdf_amended parse0 scan0 netW probeW snipW joinW "Acme"
    "https://acme.example/s1" anchorsQ [] recQ (by decide), by decide⟩

/-! ## C3: date extraction priority -/

theorem tryStages_all_none (parse : String → Option String) (doc : List Tag)
    (L : List (String × List (String × String)))
    (h : ∀ s, s ∈ L → tryTags parse (findAll doc s.1 s.2) = none) :
    tryStages parse doc L = none := by
  induction L with
  | nil => rfl
  | cons s rest ih =>
    rw [tryStages, h s (List.mem_cons_self s rest)]
    exact ih (fun t ht => h t (List.mem_cons_of_mem s ht))

theorem tryStages_append_none (parse : String → Option String) (doc : List Tag)
    (pre L : List (String × List (String × String)))
    (h : ∀ s, s ∈ pre → tryTags parse (findAll doc s.1 s.2) = none) :
    tryStages parse doc (pre ++ L) = tryStages parse doc L := by
  induction pre with
  | nil => rfl
  | cons s rest ih =>
    rw [List.cons_append, tryStages, h s (List.mem_cons_self s rest)]
    exact ih (fun t ht => h t (List.mem_cons_of_mem s ht))

/-- C3: date extraction walks the `meta_props` stages in their fixed
priority order — `article:published_time` first, then the other meta
properties, then `<time>` elements — and returns the first stage's
parsed date; only when every stage fails does it fall back to the
text regex scan, whose failure leaves the date empty (never the crawl
timestamp).  In particular a page with a valid
`article:published_time` meta tag wins over any visible-text date. -/
theorem c3_date_priority (parse scan : String → Option String) (doc : List Tag)
    (text : String) :
    (∀ pre sel post d, meta_props = pre ++ sel :: post →
      (∀ s, s ∈ pre → tryTags parse (findAll doc s.1 s.2) = none) →
      tryTags parse (findAll doc sel.1 sel.2) = some d →
      find_date_from_meta parse scan doc text = some d)
  ∧ ((∀ s, s ∈ meta_props → tryTags parse (findAll doc s.1 s.2) = none) →
      find_date_from_meta parse scan doc text = scan text) := by
  constructor
  · intro pre sel post d hsplit hpre hsel
    unfold find_date_from_meta
    rw [hsplit, tryStages_append_none parse doc pre (sel :: post) hpre, tryStages, hsel]
  · intro hall
    unfold find_date_from_meta
    rw [tryStages_all_none parse doc meta_props hall]

/-- C3 witness: a page carrying a valid `article:published_time` meta
tag yields that tag's date even though the text-scan fallback would
return a conflicting 1999 date for the visible text. -/
theorem c3_date_priority_witness :
    find_date_from_meta parseW scanW docW "Published May 9, 1999"
      = some "2021-06-01T00:00:00+00:00" :=
  (c3_date_priority parseW scanW docW "Published May 9, 1999").1 []
    ("meta", [("property", "article:published_time")])
    meta_props.tail "2021-06-01T00:00:00+00:00" rfl
    (fun s hs => absurd hs (List.not_mem_nil s))
    (by decide)

/-! ## C4: fetch retry policy -/

theorem safe_request_ok0 (net : Nat → Except String Response) (r : Response)
    (h0 : net 0 = Except.ok r) : safe_request net = (Except.ok r, []) := by
  simp [safe_request, safe_request_from, RETRY_COUNT, h0]

theorem safe_request_err_ok (net : Nat → Except String Response) (e0 : String)
    (r : Response) (h0 : net 0 = Except.error e0) (h1 : net 1 = Except.ok r) :
    safe_request net = (Except.ok r, [((3 : ℚ) / 2) ^ (0 : ℕ)]) := by
  simp [safe_request, safe_request_from, RETRY_COUNT, h0, h1]

theorem safe_request_err_err_ok (net : Nat → Except String Response)
    (e0 e1 : String) (r : Response) (h0 : net 0 = Except.error e0)
    (h1 : net 1 = Except.error e1) (h2 : net 2 = Except.ok r) :
    safe_request net
      = (Except.ok r, [((3 : ℚ) / 2) ^ (0 : ℕ), ((3 : ℚ) / 2) ^ (1 : ℕ)]) := by
  simp [safe_request, safe_request_from, RETRY_COUNT, h0, h1, h2]

theorem safe_request_all_err (net : Nat → Except String Response)
    (e0 e1 e2 : String) (h0 : net 0 = Except.error e0)
    (h1 : net 1 = Except.error e1) (h2 : net 2 = Except.error e2) :
    safe_request net
      = (Except.error e2, [((3 : ℚ) / 2) ^ (0 : ℕ), ((3 : ℚ) / 2) ^ (1 : ℕ)]) := by
  simp [safe_request, safe_request_from, RETRY_COUNT, h0, h1, h2]

/-- C4: `safe_request` makes at most 3 attempts (its result depends
only on the outcomes of attempts 0, 1, 2); any received HTTP response
is returned immediately with no further attempt and no sleep,
regardless of status code; a transient failure on attempt `i < 2` is
followed by a backoff sleep of `1.5 ^ i` seconds before the retry;
and when the final attempt also fails, the last underlying error is
surfaced. -/
theorem c4_retry_policy (net : Nat → Except String Response) :
    (∀ net2 : Nat → Except String Response,
      (∀ i, i < RETRY_COUNT + 1 → net i = net2 i) →
      safe_request net = safe_request net2)
  ∧ (∀ r, net 0 = Except.ok r → safe_request net = (Except.ok r, []))
  ∧ (∀ e0 r, net 0 = Except.error e0 → net 1 = Except.ok r →
      safe_request net = (Except.ok r, [((3 : ℚ) / 2) ^ (0 : ℕ)]))
  ∧ (∀ e0 e1 r, net 0 = Except.error e0 → net 1 = Except.error e1 →
      net 2 = Except.ok r →
      safe_request net
        = (Except.ok r, [((3 : ℚ) / 2) ^ (0 : ℕ), ((3 : ℚ) / 2) ^ (1 : ℕ)]))
  ∧ (∀ e0 e1 e2, net 0 = Except.error e0 → net 1 = Except.error e1 →
      net 2 = Except.error e2 →
      safe_request net
        = (Except.error e2, [((3 : ℚ) / 2) ^ (0 : ℕ), ((3 : ℚ) / 2) ^ (1 : ℕ)])) := by
  refine ⟨?_, fun r h0 => safe_request_ok0 net r h0,
    fun e0 r h0 h1 => safe_request_err_ok net e0 r h0 h1,
    fun e0 e1 r h0 h1 h2 => safe_request_err_err_ok net e0 e1 r h0 h1 h2,
    fun e0 e1 e2 h0 h1 h2 => safe_request_all_err net e0 e1 e2 h0 h1 h2⟩
  intro net2 hsame
  have g0 := hsame 0 (by simp [RETRY_COUNT])
  have g1 := hsame 1 (by simp [RETRY_COUNT])
  have g2 := hsame 2 (by simp [RETRY_COUNT])
  cases k0 : net 0 with
  | ok r =>
    rw [safe_request_ok0 net r k0, safe_request_ok0 net2 r (g0.symm.trans k0)]
  | error e0 =>
    cases k1 : net 1 with
    | ok r =>
      rw [safe_request_err_ok net e0 r k0 k1,
        safe_request_err_ok net2 e0 r (g0.symm.trans k0) (g1.symm.trans k1)]
    | error e1 =>
      cases k2 : net 2 with
      | ok r =>
        rw [safe_request_err_err_ok net e0 e1 r k0 k1 k2,
          safe_request_err_err_ok net2 e0 e1 r (g0.symm.trans k0)
            (g1.symm.trans k1) (g2.symm.trans k2)]
      | error e2 =>
        rw [safe_request_all_err net e0 e1 e2 k0 k1 k2,
          safe_request_all_err net2 e0 e1 e2 (g0.symm.trans k0)
            (g1.symm.trans k1) (g2.symm.trans k2)]

/-- C4 witness: a connection error on the first attempt followed by a
received 404 yields the 404 response after a single 1.5^0-second
backoff, with no retry of the received response. -/
theorem c4_retry_policy_witness :
    safe_request netRetryW
      = (Except.ok { status := 404, body := "" }, [((3 : ℚ) / 2) ^ (0 : ℕ)]) :=
  (c4_retry_policy netRetryW).2.2.1 "connection reset" { status := 404, body := "" }
    rfl rfl

/-! ## C5: one summary row per organization -/

/-- C5 counterexample: the "Acme" organization has one seed URL and is
processed to completion, yet because it yields zero ReportRecords the
`if firm_rows:` guard skips the summary — no OrganizationSummary row
is appended, refuting "including when the organization yielded zero
ReportRecords". -/
theorem c5_summary_counterexample :
    (processFirms parseD0 isoD0 scrapeNone [acmeCfg]).2 = [] := by
  decide

/-- C5 (amended): for every organization with at least one seed URL
whose seeds yield at least one ReportRecord, exactly one
OrganizationSummary — computed from all of that organization's
accumulated records, after all its seeds are processed — is appended,
together with all its records; an organization whose seeds yield zero
records contributes neither a summary row nor report rows. -/
theorem c5_summary_per_firm {D : Type} [LinearOrder D]
    (parseD : String → Option D) (isoD : D → String)
    (scrape : String → String → List ReportRecord) (firms : List FirmConfig) :
    (processFirms parseD isoD scrape firms).2
        = (firms.filter (fun f => !(firm_rows scrape f).isEmpty)).map
            (fun f => mkSummary parseD isoD f (successful_fetches scrape f)
              (firm_rows scrape f))
  ∧ (processFirms parseD isoD scrape firms).1
        = ((firms.filter (fun f => !(firm_rows scrape f).isEmpty)).map
            (firm_rows scrape)).flatten := by
  induction firms with
  | nil => exact ⟨rfl, rfl⟩
  | cons f rest ih =>
    by_cases hseed : f.seedUrls.isEmpty = true
    · have hrows : firm_rows scrape f = [] := by
        unfold firm_rows
        rw [List.isEmpty_iff.1 hseed]
        rfl
      rw [processFirms, if_pos hseed]
      constructor
      · rw [ih.1]
        simp [List.filter_cons, hrows]
      · rw [ih.2]
        simp [List.filter_cons, hrows]
    · by_cases hrows : (firm_rows scrape f).isEmpty = true
      · rw [processFirms, if_neg hseed, if_pos hrows]
        constructor
        · rw [ih.1]
          simp [List.filter_cons, hrows]
        · rw [ih.2]
          simp [List.filter_cons, hrows]
      · have hIE : (firm_rows scrape f).isEmpty = false := by
          simpa using hrows
        rw [processFirms, if_neg hseed, if_neg hrows]
        constructor
        · rw [ih.1]
          simp [List.filter_cons, hIE]
        · rw [ih.2]
          simp [List.filter_cons, hIE]

/-! ## C6: summary invariants -/

theorem foldl_min_le {D : Type} [LinearOrder D] (d : D) (ds : List D) :
    ds.foldl min d ≤ d := by
  induction ds generalizing d with
  | nil => exact le_refl d
  | cons x xs ih =>
    calc xs.foldl min (min d x) ≤ min d x := ih (min d x)
    _ ≤ d := min_le_left d x

theorem le_foldl_max {D : Type} [LinearOrder D] (d : D) (ds : List D) :
    d ≤ ds.foldl max d := by
  induction ds generalizing d with
  | nil => exact le_refl d
  | cons x xs ih =>
    calc d ≤ max d x := le_max_left d x
    _ ≤ xs.foldl max (max d x) := ih (max d x)

/-- C6: every computed OrganizationSummary satisfies
`pdf_reports + html_reports = total_reports`; when at least one of the
organization's records has a non-empty, parseable publication
timestamp the earliest/latest fields render an ordered pair
(earliest ≤ latest) of parsed dates, and otherwise both fields are
empty — records with empty or unparseable dates are excluded from the
min/max. -/
theorem c6_summary_invariants {D : Type} [LinearOrder D]
    (parseD : String → Option D) (isoD : D → String) (f : FirmConfig)
    (sf : Nat) (rows : List ReportRecord) :
    ((mkSummary parseD isoD f sf rows).pdfReports
        + (mkSummary parseD isoD f sf rows).htmlReports
      = (mkSummary parseD isoD f sf rows).totalReports)
  ∧ (firm_dates parseD rows ≠ [] →
      ∃ a b, a ≤ b
        ∧ (mkSummary parseD isoD f sf rows).earliestReportDate = isoD a
        ∧ (mkSummary parseD isoD f sf rows).latestReportDate = isoD b)
  ∧ (firm_dates parseD rows = [] →
      (mkSummary parseD isoD f sf rows).earliestReportDate = ""
        ∧ (mkSummary parseD isoD f sf rows).latestReportDate = "") := by
  refine ⟨?_, ?_, ?_⟩
  · have hle := List.length_filter_le (fun r => r.isPdf) rows
    simp only [mkSummary]
    omega
  · intro hne
    cases hd : firm_dates parseD rows with
    | nil => exact absurd hd hne
    | cons d ds =>
      refine ⟨ds.foldl min d, ds.foldl max d,
        le_trans (foldl_min_le d ds) (le_foldl_max d ds), ?_, ?_⟩
      · simp [mkSummary, hd, listMin]
      · simp [mkSummary, hd, listMax]
  · intro hz
    constructor
    · simp [mkSummary, hz, listMin]
    · simp [mkSummary, hz, listMax]

/-- C6 witness: the spec's "Acme" scenario (dates 2021-01-01,
2021-06-01 and one empty) yields an ordered pair, and a firm whose
only dated record is unparseable gets empty earliest/latest fields. -/
theorem c6_summary_invariants_witness :
    (∃ a b : ℤ, a ≤ b
        ∧ (mkSummary parseDAcme isoDAcme acmeCfg 1 acmeRows).earliestReportDate
            = isoDAcme a
        ∧ (mkSummary parseDAcme isoDAcme acmeCfg 1 acmeRows).latestReportDate
            = isoDAcme b)
  ∧ ((mkSummary parseDAcme isoDAcme acmeCfg 1 garbageRows).earliestReportDate = ""
      ∧ (mkSummary parseDAcme isoDAcme acmeCfg 1 garbageRows).latestReportDate = "") :=
  ⟨(c6_summary_invariants parseDAcme isoDAcme acmeCfg 1 acmeRows).2.1 (by decide),
   (c6_summary_invariants parseDAcme isoDAcme acmeCfg 1 garbageRows).2.2 (by decide)⟩

/-! ## C7: title fallback chain -/

/-- C7 counterexample: a successfully fetched HTML page (status 200,
`text/html`) with no title element, no meta title and no `h1`, reached
through an anchor with empty text, yields an *empty* title — not the
URL, which the claim requires. -/
theorem c7_title_counterexample :
    (buildRecord parse0 scan0 "f" "s" "https://acme.example/deep-analysis" "" ""
        none (LinkFetch.html [] "")).title = ""
  ∧ "https://acme.example/deep-analysis" ≠ "" := by
  constructor
  · decide
  · decide

/-- C7 (amended): for a non-PDF candidate fetched successfully as
HTML, the title is the page title element, else a meta title tag's
content, else the first `h1`'s text, else the anchor text — which can
leave the title empty; the URL itself is used as a fallback after the
anchor text only when the target fetch fails or returns a
non-200/non-HTML response. -/
theorem c7_title_chain (parse scan : String → Option String) (doc : List Tag)
    (text firm seed found linkText snip0 : String) (probe : Option Nat) :
    (∀ s, title_from_title_tag doc = some s → extract_title doc = some s)
  ∧ (title_from_title_tag doc = none → ∀ s, title_from_meta doc = some s →
      extract_title doc = some s)
  ∧ (title_from_title_tag doc = none → title_from_meta doc = none →
      ∀ t, (findAll doc "h1" []).head? = some t →
      extract_title doc = some (clean_text t.text))
  ∧ (title_from_title_tag doc = none → title_from_meta doc = none →
      (findAll doc "h1" []).head? = none → extract_title doc = none)
  ∧ (is_pdf_link found = false → ∀ s, extract_title doc = some s → s ≠ "" →
      (buildRecord parse scan firm seed found linkText snip0 probe
        (LinkFetch.html doc text)).title = s)
  ∧ (is_pdf_link found = false → extract_title doc = none →
      (buildRecord parse scan firm seed found linkText snip0 probe
        (LinkFetch.html doc text)).title = linkText)
  ∧ (is_pdf_link found = false →
      (buildRecord parse scan firm seed found linkText snip0 probe
        LinkFetch.failed).title = pyOrS linkText found)
  ∧ (is_pdf_link found = false → ∀ st : Nat,
      (buildRecord parse scan firm seed found linkText snip0 probe
        (LinkFetch.nonHtml st)).title = pyOrS linkText found) := by
  refine ⟨?_, ?_, ?_, ?_, ?_, ?_, ?_, ?_⟩
  · intro s h
    unfold extract_title
    rw [h]
  · intro h1 s h2
    unfold extract_title
    rw [h1, h2]
  · intro h1 h2 t h3
    unfold extract_title
    rw [h1, h2, h3]
  · intro h1 h2 h3
    unfold extract_title
    rw [h1, h2, h3]
  · intro hpdf s hs hneq
    simp [buildRecord, hpdf, pyOr, hs, hneq]
  · intro hpdf h
    simp [buildRecord, hpdf, pyOr, h]
  · intro hpdf
    simp [buildRecord, hpdf]
  · intro hpdf st
    simp [buildRecord, hpdf]

/-- C7 witness: a fetched HTML page whose `<title>` is "Acme Exposed"
yields exactly that title for the non-PDF candidate. -/
theorem c7_title_chain_witness :
    (buildRecord parse0 scan0 "f" "s" "https://acme.example/deep-analysis"
        "anchor" "" none (LinkFetch.html docTitleW "")).title = "Acme Exposed" :=
  (c7_title_chain parse0 scan0 docTitleW "" "f" "s"
      "https://acme.example/deep-analysis" "anchor" "" none).2.2.2.2.1
    (by decide) "Acme Exposed" (by decide) (by decide)

/-! ## C8: deduplication scope -/

/-- Along the seed-page scan, emitted records carry pairwise distinct
normalized URLs, all of them outside the `seen` accumulator. -/
theorem seedLoop_urls_nodup (parse scan : String → Option String)
    (net : String → LinkFetch) (probe : String → Option Nat)
    (snipOf : Anchor → String) (join : String → String → String)
    (firm seed : String) (anchors : List Anchor) :
    ∀ seen : List String,
      ((seedLoop parse scan net probe snipOf join firm seed anchors seen).map
          (fun r => r.foundUrl)).Nodup
      ∧ ∀ r ∈ seedLoop parse scan net probe snipOf join firm seed anchors seen,
          r.foundUrl ∉ seen := by
  induction anchors with
  | nil =>
    intro seen
    constructor
    · simp [seedLoop]
    · intro r h; simp [seedLoop] at h
  | cons a rest ih =>
    intro seen
    rw [seedLoop]
    cases hn : normalize_url join seed a.href with
    | none =>
      simp only [hn]
      exact ih seen
    | some found =>
      simp only [hn]
      by_cases hseen : found ∈ seen
      · rw [if_pos hseen]
        exact ih seen
      · rw [if_neg hseen]
        by_cases hacc : accepted_link found (clean_text a.text) = true
        · rw [if_pos hacc]
          rcases ih (found :: seen) with ⟨hnodup, hnotin⟩
          constructor
          · rw [List.map_cons, List.nodup_cons]
            refine ⟨?_, hnodup⟩
            rw [buildRecord_foundUrl]
            intro hmem
            rcases List.mem_map.1 hmem with ⟨r, hr, hru⟩
            exact hnotin r hr (by rw [hru]; exact List.mem_cons_self found seen)
          · intro r hr
            rcases List.mem_cons.1 hr with rfl | hmem
            · rw [buildRecord_foundUrl]; exact hseen
            · intro hin
              exact hnotin r hmem (List.mem_cons_of_mem found hin)
        · rw [if_neg hacc]
          rcases ih (found :: seen) with ⟨hnodup, hnotin⟩
          exact ⟨hnodup, fun r hr hin => hnotin r hr (List.mem_cons_of_mem found hin)⟩

/-- C8: within a single seed-page scan, discovered links are
deduplicated by exact normalized URL — the emitted records' URLs are
pairwise distinct; across seed pages there is no deduplication (a firm
with two seeds each linking the same URL gets two records), and the
append-only output keeps duplicate rows across runs. -/
theorem c8_dedup_scope :
    (∀ (parse scan : String → Option String) (net : String → LinkFetch)
        (probe : String → Option Nat) (snipOf : Anchor → String)
        (join : String → String → String) (firm seed : String)
        (anchors : List Anchor),
      ((seedLoop parse scan net probe snipOf join firm seed anchors []).map
          (fun r => r.foundUrl)).Nodup)
  ∧ ((processFirms parseD0 isoD0 scrapeW [firmTwoSeeds]).1.map
        (fun r => r.foundUrl))
      = ["https://acme.example/r/a.pdf", "https://acme.example/r/a.pdf"]
  ∧ ((save_as_csv rowsFragPdf rowsFragPdf).map (fun r => r.foundUrl))
      = ["https://x.example/report.pdf#page=2", "https://x.example/report.pdf#page=2"] := by
  refine ⟨?_, by decide, by decide⟩
  intro parse scan net probe snipOf join firm seed anchors
  exact (seedLoop_urls_nodup parse scan net probe snipOf join firm seed anchors []).1

/-! ## C9: configuration error handling -/

/-- C9 counterexample: a malformed configuration document does not
merely skip an organization — `json.load`'s failure is uncaught, so
the run never reaches processing at all, refuting "only a missing
configuration file is fatal". -/
theorem c9_config_counterexample :
    (runMain parseD0 isoD0 scrapeNone (ConfigLoad.malformed "unexpected token")).completes
      = false := by
  decide

/-- C9 (amended): both a missing configuration file and a malformed
configuration document are fatal to the run (exit and uncaught parse
error, respectively); an organization without seed URLs is a
per-organization warning that skips only that organization while the
run continues with the remaining ones. -/
theorem c9_config_errors {D : Type} [LinearOrder D] (parseD : String → Option D)
    (isoD : D → String) (scrape : String → String → List ReportRecord) :
    (runMain parseD isoD scrape ConfigLoad.missing = RunOutcome.fatalMissingConfig)
  ∧ (∀ e, runMain parseD isoD scrape (ConfigLoad.malformed e)
      = RunOutcome.fatalParseError e)
  ∧ (∀ f rest, f.seedUrls = [] →
      runMain parseD isoD scrape (ConfigLoad.loaded (f :: rest))
        = runMain parseD isoD scrape (ConfigLoad.loaded rest)) := by
  refine ⟨rfl, fun e => rfl, ?_⟩
  intro f rest hf
  simp [runMain, processFirms, hf]

/-- C9 witness: a seedless organization ahead of "Acme" is skipped and
the run proceeds identically to one without it. -/
theorem c9_config_errors_witness :
    runMain parseD0 isoD0 scrapeW (ConfigLoad.loaded [noSeedCfg, firmTwoSeeds])
      = runMain parseD0 isoD0 scrapeW (ConfigLoad.loaded [firmTwoSeeds]) :=
  (c9_config_errors parseD0 isoD0 scrapeW).2.2 noSeedCfg [firmTwoSeeds] rfl

/-! ## C10: PDF records carry no extracted title or date -/

/-- C10: every ReportRecord with `is_pdf = true` has empty `title` and
empty `date_published`: title and date extraction run only on the
non-PDF branch, so PDF records carry only the URL, snippet, probe
status and download information. -/
theorem c10_pdf_record_fields (parse scan : String → Option String)
    (firm seed found linkText snip0 : String) (probe : Option Nat)
    (lf : LinkFetch)
    (h : (buildRecord parse scan firm seed found linkText snip0 probe lf).isPdf = true) :
    (buildRecord parse scan firm seed found linkText snip0 probe lf).title = ""
      ∧ (buildRecord parse scan firm seed found linkText snip0 probe lf).datePublished
          = "" := by
  rw [buildRecord_isPdf] at h
  unfold buildRecord
  rw [if_pos h]
  exact ⟨rfl, rfl⟩

/-- C10 witness: the PDF record for `a.pdf?dl=1` has empty title and
date. -/
theorem c10_pdf_record_fields_witness :
    recQ.title = "" ∧ recQ.datePublished = "" :=
  c10_pdf_record_fields parse0 scan0 "Acme" "https://acme.example/s1"
    "https://acme.example/files/a.pdf?dl=1" (clean_text "x")
    (snipW { href := "https://acme.example/files/a.pdf?dl=1", text := "x" })
    (probeW "https://acme.example/files/a.pdf?dl=1")
    (netW "https://acme.example/files/a.pdf?dl=1") (by decide)
